import Mathlib

/-!
Verification development for a simulated multi-node datagram network
(three-layer protocol stack: datalink / network / transport, one node per
process, channels modelled as append-only byte files).

The definitions below are a shallow embedding of `src/node.py`.  Strings are
modelled as `List Char`; Python `int` values are `Nat` (all the quantities
involved are non-negative counters); dictionaries are association lists with
first-occurrence lookup; cross-layer calls are recorded as emitted events;
runtime exceptions (failed `int(...)` parses, `KeyError`, failed `assert`)
are the `.crash` outcome, and loops whose iteration count is not structurally
bounded take a fuel argument, returning `.fuelOut` when the fuel is exhausted
(fuel counts loop iterations, so "for every fuel the result is `.fuelOut`"
means the loop never finishes).
-/

/-- Outcome of running a piece of the Python code: it either completes,
raises an exception (`crash`), or exceeds the given fuel (`fuelOut`). -/
inductive Err where
  | crash : Err
  | fuelOut : Err
deriving DecidableEq, Repr

/-- A computation that may crash or run out of fuel. -/
abbrev Run (α : Type) : Type := Except Err α

deriving instance DecidableEq for Except

/-- Lift a partial lookup / parse to `Run`: Python raises on failure. -/
def runOf {α : Type} : Option α → Run α
  | some a => .ok a
  | none => .error .crash

/-- Python `int(c)` on a single character: the decimal digit value, or an
exception for a non-digit. -/
def digit? (c : Char) : Option Nat :=
  if 48 ≤ c.toNat ∧ c.toNat ≤ 57 then some (c.toNat - 48) else none

/-- Python `int(s)` on a short slice of digit characters: `none` models the
`ValueError` raised on an empty or non-digit string. -/
def decNat? (l : List Char) : Option Nat :=
  match l with
  | [] => none
  | _ => l.foldlM (fun a c => (digit? c).map (fun d => 10 * a + d)) 0

/-- Python `"{:02d}".format(n)` / `str(n).zfill(2)` for `n : Nat`: the decimal
digits of `n`, left-padded with `'0'` to width 2. -/
def zfill2 (n : Nat) : List Char :=
  List.replicate (2 - (Nat.toDigits 10 n).length) '0' ++ Nat.toDigits 10 n

/-- Sum of the byte values of an ASCII string (`sum(s.encode('ascii'))`). -/
def asciiSum (l : List Char) : Nat := (l.map Char.toNat).sum

/-- Python `'{:w}'.format(s)` on a string: left-justify, pad with spaces. -/
def ljust (w : Nat) (l : List Char) : List Char :=
  l ++ List.replicate (w - l.length) ' '

/-- Python `s.strip()`: remove leading and trailing whitespace. -/
def pyStrip (l : List Char) : List Char :=
  ((l.dropWhile Char.isWhitespace).reverse.dropWhile Char.isWhitespace).reverse

/-- Dictionary lookup (`d[k]` / `d.get(k)`), first matching key. -/
def alGet? {α : Type} (k : Nat) : List (Nat × α) → Option α
  | [] => none
  | (k', v) :: l => if k' = k then some v else alGet? k l

/-- Dictionary update `d[k] = v`: replace the first binding of `k`, or append
a new binding (Python dicts keep insertion order). -/
def alSet {α : Type} (k : Nat) (v : α) : List (Nat × α) → List (Nat × α)
  | [] => [(k, v)]
  | (k', v') :: l => if k' = k then (k, v) :: l else (k', v') :: alSet k v l

/-- Python `pat in s` on strings: substring containment, helper that tests
whether `pat` is a prefix of `s`. -/
def startsWithL : List Char → List Char → Bool
  | [], _ => true
  | _ :: _, [] => false
  | a :: l, b :: m => a == b && startsWithL l m

/-- Python `pat in s` on strings: `pat` occurs as a contiguous substring. -/
def infixOfL (pat : List Char) : List Char → Bool
  | [] => startsWithL pat []
  | s@(_ :: rest) => startsWithL pat s || infixOfL pat rest

-- ----------------------- TRANSPORT LAYER -----------------------

/-- A buffered transport packet (`class Packet`); the source keeps `seq_num`
and `source` as the digit strings sliced from the message and converts them
with `int(...)` at each use site; we store the parsed numbers (the constant
`msg_type`/`history` fields are omitted).  `message` is the data fragment. -/
structure Packet where
  seq_num : Nat
  message : List Char
  source : Nat
deriving DecidableEq, Repr

/-- The mutable state of `Transport_Layer` (the `nackable` field of the
source is never read or written after construction and is omitted). -/
structure TState where
  sequence_number : Nat
  buffer : List Packet
  ack_buffer : List (Nat × List Char)
  timeout : List (Nat × Int)
  nack_timer : Int
deriving DecidableEq, Repr

/-- `Transport_Layer.nack`: the NACK message `"N{}{}{:02d}".format(id, dest,
seq_num)` handed to the network layer. -/
def nackMsg (selfId dest seq : Nat) : List Char :=
  'N' :: (Nat.toDigits 10 selfId ++ Nat.toDigits 10 dest ++ zfill2 seq)

/-- The data message `'D{}{}{:02d}{}'.format(id, dest, seq, frame)` built by
`Transport_Layer.send`. -/
def dataMsg (selfId dest seq : Nat) (frame : List Char) : List Char :=
  'D' :: (Nat.toDigits 10 selfId ++ Nat.toDigits 10 dest ++ zfill2 seq ++ frame)

/-- The header of `dataMsg` in front of the fragment. -/
def dataMsgHeader (selfId dest seq : Nat) : List Char :=
  'D' :: (Nat.toDigits 10 selfId ++ Nat.toDigits 10 dest ++ zfill2 seq)

/-- `[message[i:i+5] for i in range(0, len(message), 5)]`, with fuel equal to
the list length (each step consumes at least one character, so the fuel never
runs out when started with `l.length`). -/
def chunk5Aux : Nat → List Char → List (List Char)
  | 0, _ => []
  | _ + 1, [] => []
  | fuel + 1, l@(_ :: _) => l.take 5 :: chunk5Aux fuel (l.drop 5)

/-- The 5-byte split of `Transport_Layer.send`. -/
def chunk5 (l : List Char) : List (List Char) := chunk5Aux l.length l

/-- Static per-node configuration read by the transport layer. -/
structure NodeCfg where
  id : Nat
  dest_id : Nat
  message : List Char
deriving DecidableEq, Repr

namespace Transport_Layer

/-- `Transport_Layer.send`: split the node's message into 5-byte fragments
and, per fragment, hand `dataMsg` to the network layer (recorded in the
second component as `(message, dest)` events), append `(seq, message)` to
`ack_buffer`, step `sequence_number` mod 100 and reset `nack_timer`. -/
def send (cfg : NodeCfg) (st : TState) : TState × List (List Char × Nat) :=
  if cfg.message = [] then (st, [])
  else
    (chunk5 cfg.message).foldl
      (fun p frame =>
        let dm := dataMsg cfg.id cfg.dest_id p.1.sequence_number frame
        ({ p.1 with
            sequence_number := (p.1.sequence_number + 1) % 100,
            ack_buffer := p.1.ack_buffer ++ [(p.1.sequence_number, dm)],
            nack_timer := 20 },
         p.2 ++ [(dm, cfg.dest_id)]))
      (st, [])

/-- The condition `int(msg.seq_num) == i and int(msg.source) == int(source)`
tested against each buffered packet in `do_timeout`. -/
def pktMatch (source i : Nat) (m : Packet) : Bool :=
  m.seq_num == i && m.source == source

/-- `Transport_Layer.do_timeout`: for each `i in range(self.sequence_number)`
scan the receive buffer (`to_nack` starts at `i` and is set to `-1` by any
matching packet); emit a NACK for every `i` left non-negative, and a final
NACK with `sequence_number + 1` when none was emitted.  The result is the
list of NACK messages handed to the network layer, in emission order. -/
def do_timeout (selfId : Nat) (st : TState) (source : Nat) : List (List Char) :=
  let r := (List.range st.sequence_number).foldl
    (fun acc i =>
      let t : Int := st.buffer.foldl
        (fun t m => if pktMatch source i m then -1 else t) (i : Int)
      if 0 ≤ t then (acc.1 ++ [nackMsg selfId source i], false) else acc)
    (([] : List (List Char)), true)
  if r.2 then r.1 ++ [nackMsg selfId source (st.sequence_number + 1)] else r.1

/-- `list.remove(x)`: delete the first element equal to `x`. -/
def removeFirst (x : Nat × List Char) : List (Nat × List Char) → List (Nat × List Char)
  | [] => []
  | y :: ys => if y = x then ys else y :: removeFirst x ys

/-- The `for msg in self.ack_buffer:` loop of the NACK branch of
`receieve_from_network`, with Python's list-iterator semantics: the iterator
keeps an index that advances by one per step over the list *as currently
mutated*, and `remove` deletes the first equal element, so the element that
slides into a removed element's slot is skipped.  Returns the final buffer
and the messages re-handed to the network layer.  The loop runs at most
`len(buffer)` iterations (the index grows every step and the list never
grows), so fuel `buffer.length + 1` is never exhausted. -/
def nackScanF : Nat → Nat → Nat → List (Nat × List Char) →
    List (Nat × List Char) × List (List Char)
  | 0, _, _, buf => (buf, [])
  | fuel + 1, seq, idx, buf =>
    match buf.get? idx with
    | none => (buf, [])
    | some m =>
      if m.1 < seq then nackScanF fuel seq (idx + 1) (removeFirst m buf)
      else if m.1 = seq then
        let r := nackScanF fuel seq (idx + 1) buf
        (r.1, m.2 :: r.2)
      else nackScanF fuel seq (idx + 1) buf

/-- `Transport_Layer.receieve_from_network` (the source's spelling): dispatch
on the first character.  `"D"`: parse source / seq / data, advance
`sequence_number` to `seq + 1` when `seq` is not below it, append to the
receive buffer and restart the source's gap timer.  `"N"`: clear the whole
`ack_buffer` when `seq` exceeds `sequence_number`, then run the
iterate-and-remove loop.  The second component records the messages handed
back to the network layer. -/
def receieve_from_network (st : TState) (message : List Char) :
    Run (TState × List (List Char)) :=
  match message with
  | [] => .error .crash
  | c :: _ =>
    if c = 'D' then do
      let sc ← runOf (message.drop 1).head?
      let source ← runOf (digit? sc)
      let seq ← runOf (decNat? ((message.drop 3).take 2))
      let data := message.drop 5
      let sn := if seq ≥ st.sequence_number then seq + 1 else st.sequence_number
      .ok ({ st with
              sequence_number := sn,
              buffer := st.buffer ++ [⟨seq, data, source⟩],
              timeout := alSet source 5 st.timeout }, [])
    else if c = 'N' then do
      let seq ← runOf (decNat? ((message.drop 3).take 2))
      let buf := if seq > st.sequence_number then [] else st.ack_buffer
      let p := nackScanF (buf.length + 1) seq 0 buf
      .ok ({ st with ack_buffer := p.1 }, p.2)
    else .ok (st, [])

end Transport_Layer

-- ----------------------- BASIC LEMMAS -----------------------

theorem digit?_le9 {c : Char} {v : Nat} (h : digit? c = some v) : v ≤ 9 := by
  unfold digit? at h
  split at h
  · rename_i hc
    cases h
    omega
  · exact absurd h (by simp)

theorem decNat?_le99 {l : List Char} {v : Nat} (hl : l.length ≤ 2)
    (h : decNat? l = some v) : v ≤ 99 := by
  match l with
  | [] => simp [decNat?] at h
  | [a] =>
    simp only [decNat?, List.foldlM] at h
    cases ha : digit? a with
    | none => simp [ha] at h
    | some da =>
      have hda := digit?_le9 ha
      simp [ha] at h
      omega
  | [a, b] =>
    simp only [decNat?, List.foldlM] at h
    cases ha : digit? a with
    | none => simp [ha] at h
    | some da =>
      cases hb : digit? b with
      | none => simp [ha, hb] at h
      | some db =>
        have hda := digit?_le9 ha
        have hdb := digit?_le9 hb
        simp [ha, hb] at h
        omega
  | _ :: _ :: _ :: _ => simp at hl

theorem toDigits_len1 : ∀ n : Nat, n < 10 → (Nat.toDigits 10 n).length = 1 := by
  decide

theorem zfill2_len2 : ∀ n : Nat, n < 100 → (zfill2 n).length = 2 := by
  decide

theorem decNat?_zfill2 : ∀ n : Nat, n < 100 → decNat? (zfill2 n) = some n := by
  decide

theorem nackMsg_len {selfId dest seq : Nat} (h1 : selfId < 10) (h2 : dest < 10)
    (h3 : seq ≤ 99) : (nackMsg selfId dest seq).length = 5 := by
  simp [nackMsg, toDigits_len1 selfId h1, toDigits_len1 dest h2,
    zfill2_len2 seq (by omega)]

theorem alGet?_alSet_self {α : Type} (k : Nat) (v : α) (l : List (Nat × α)) :
    alGet? k (alSet k v l) = some v := by
  induction l with
  | nil => simp [alGet?, alSet]
  | cons p l ih =>
    by_cases h : p.1 = k
    · simp [alGet?, alSet, h]
    · simpa [alGet?, alSet, h] using ih

theorem alGet?_alSet_ne {α : Type} {k k' : Nat} (v : α) (l : List (Nat × α))
    (h : k' ≠ k) : alGet? k' (alSet k v l) = alGet? k' l := by
  induction l with
  | nil => simp [alGet?, alSet, Ne.symm h]
  | cons p l ih =>
    obtain ⟨a, b⟩ := p
    by_cases hp : a = k
    · simp [alGet?, alSet, hp, Ne.symm h]
    · simp [alGet?, alSet, hp, ih]

theorem alGet?_mem_keys {α : Type} {k : Nat} {v : α} {l : List (Nat × α)}
    (h : alGet? k l = some v) : k ∈ l.map Prod.fst := by
  induction l with
  | nil => simp [alGet?] at h
  | cons p l ih =>
    by_cases hp : p.1 = k
    · simp [hp]
    · simp only [alGet?, hp, if_false] at h
      simp [ih h]

-- ----------------------- do_timeout CHARACTERIZATION -----------------------

theorem to_nack_foldl (source i : Nat) (buf : List Packet) : ∀ t : Int,
    buf.foldl (fun t m => if Transport_Layer.pktMatch source i m then -1 else t) t
      = if buf.any (Transport_Layer.pktMatch source i) then -1 else t := by
  induction buf with
  | nil => intro t; simp
  | cons m buf ih =>
    intro t
    cases hm : Transport_Layer.pktMatch source i m <;>
      simp [List.foldl_cons, List.any_cons, hm, ih]

/-- The per-`i` body of `do_timeout` appends a NACK exactly for the missing
sequence numbers and clears the final-NACK flag when it does. -/
theorem do_timeout_foldl (selfId source : Nat) (st : TState) :
    ∀ (l : List Nat) (acc : List (List Char)) (flag : Bool),
    l.foldl
      (fun acc i =>
        let t : Int := st.buffer.foldl
          (fun t m => if Transport_Layer.pktMatch source i m then -1 else t) (i : Int)
        if 0 ≤ t then (acc.1 ++ [nackMsg selfId source i], false) else acc)
      (acc, flag)
    = (acc ++ (l.filter (fun i => ! st.buffer.any (Transport_Layer.pktMatch source i))).map
          (nackMsg selfId source),
       flag && (l.filter (fun i => ! st.buffer.any (Transport_Layer.pktMatch source i))).isEmpty) := by
  intro l
  induction l with
  | nil => intro acc flag; simp
  | cons i l ih =>
    intro acc flag
    rw [List.foldl_cons]
    cases hi : st.buffer.any (Transport_Layer.pktMatch source i) with
    | true =>
      have ht : st.buffer.foldl
          (fun t m => if Transport_Layer.pktMatch source i m then -1 else t) (i : Int) = -1 := by
        rw [to_nack_foldl, hi, if_pos rfl]
      simp only [ht]
      rw [if_neg (by norm_num)]
      rw [ih acc flag]
      simp [List.filter_cons, hi]
    | false =>
      have ht : st.buffer.foldl
          (fun t m => if Transport_Layer.pktMatch source i m then -1 else t) (i : Int) = (i : Int) := by
        rw [to_nack_foldl, hi]; simp
      simp only [ht]
      rw [if_pos (by positivity)]
      rw [ih]
      simp [List.filter_cons, hi, List.append_assoc]

/-- Helper: closed form of `do_timeout`, shared by several claims. -/
theorem do_timeout_eq (selfId source : Nat) (st : TState) :
    Transport_Layer.do_timeout selfId st source =
      (if ((List.range st.sequence_number).filter
            (fun i => ! st.buffer.any (Transport_Layer.pktMatch source i))).isEmpty
       then [nackMsg selfId source (st.sequence_number + 1)]
       else ((List.range st.sequence_number).filter
            (fun i => ! st.buffer.any (Transport_Layer.pktMatch source i))).map
            (nackMsg selfId source)) := by
  unfold Transport_Layer.do_timeout
  rw [do_timeout_foldl selfId source st (List.range st.sequence_number) [] true]
  cases he : ((List.range st.sequence_number).filter
      (fun i => ! st.buffer.any (Transport_Layer.pktMatch source i))).isEmpty with
  | true =>
    have : ((List.range st.sequence_number).filter
        (fun i => ! st.buffer.any (Transport_Layer.pktMatch source i))) = [] :=
      List.isEmpty_iff.mp he
    simp [this]
  | false => simp [he]

/-- C2: for every source, `do_timeout(source)` emits exactly one NACK
`(self → source, seq = i)` for each `i` in `[0, sequence_number)` that has no
buffered packet with that source and sequence number; when no such `i`
exists, it emits exactly the terminal NACK with `seq = sequence_number + 1`. -/
theorem claim_C2_do_timeout_gap_nacks (selfId source : Nat) (st : TState) :
    Transport_Layer.do_timeout selfId st source =
      (if ((List.range st.sequence_number).filter
            (fun i => ! st.buffer.any (Transport_Layer.pktMatch source i))).isEmpty
       then [nackMsg selfId source (st.sequence_number + 1)]
       else ((List.range st.sequence_number).filter
            (fun i => ! st.buffer.any (Transport_Layer.pktMatch source i))).map
            (nackMsg selfId source)) :=
  do_timeout_eq selfId source st

/-- C1: receiving a NACK does *not* behave as specified.  With
`sequence_number = 2` and `ack_buffer = [(0,"a"), (1,"b")]`, a NACK with
`seq = 1` should remove the `seq 0` entry and re-hand the `seq 1` entry to
the network layer — but the code removes entries from `ack_buffer` while
iterating over it, so after removing `(0,"a")` the iterator skips `(1,"b")`
and nothing is resent (first conjunct); a NACK with `seq = 2` should remove
both entries, but `(1,"b")` survives for the same reason (second conjunct). -/
theorem claim_C1_nack_handling_skips_entries :
    Transport_Layer.receieve_from_network
        ⟨2, [], [(0, ['a']), (1, ['b'])], [], -1⟩ ['N', '0', '1', '0', '1']
      = .ok (⟨2, [], [(1, ['b'])], [], -1⟩, [])
    ∧ Transport_Layer.receieve_from_network
        ⟨2, [], [(0, ['a']), (1, ['b'])], [], -1⟩ ['N', '0', '1', '0', '2']
      = .ok (⟨2, [], [(1, ['b'])], [], -1⟩, []) := by
  constructor <;> rfl

/-- C8: the receive-path update of `sequence_number` does not wrap modulo
100: on receipt of the data message `"D1299hi"` (seq = 99) with
`sequence_number = 0`, the code sets `sequence_number = 99 + 1 = 100`, which
is outside `[0..99]`. -/
theorem claim_C8_sequence_number_overflows :
    Transport_Layer.receieve_from_network ⟨0, [], [], [], -1⟩
        ['D', '1', '2', '9', '9', 'h', 'i']
      = .ok (⟨100, [⟨99, ['h', 'i'], 1⟩], [], [(1, 5)], -1⟩, [])
    ∧ ¬ (100 ≤ 99) := by
  constructor
  · rfl
  · omega

-- ----------------------- SEND / FRAGMENTATION -----------------------

theorem chunk5Aux_nil : ∀ fuel : Nat, chunk5Aux fuel [] = [] := by
  intro fuel
  cases fuel <;> rfl

theorem chunk5Aux_join : ∀ (fuel : Nat) (l : List Char), l.length ≤ fuel →
    (chunk5Aux fuel l).flatten = l := by
  intro fuel
  induction fuel with
  | zero =>
    intro l hl
    have : l = [] := List.length_eq_zero.mp (Nat.le_zero.mp hl)
    simp [this, chunk5Aux]
  | succ fuel ih =>
    intro l hl
    match l with
    | [] => simp [chunk5Aux]
    | a :: t =>
      have he : chunk5Aux (fuel + 1) (a :: t)
          = (a :: t).take 5 :: chunk5Aux fuel ((a :: t).drop 5) := rfl
      rw [he, List.flatten_cons, ih ((a :: t).drop 5) (by simp at hl ⊢; omega)]
      exact List.take_append_drop 5 (a :: t)

theorem chunk5Aux_mem : ∀ (fuel : Nat) (l : List Char), l.length ≤ fuel →
    ∀ c ∈ chunk5Aux fuel l, c.length ≤ 5 ∧ c ≠ [] := by
  intro fuel
  induction fuel with
  | zero => intro l hl c hc; simp [chunk5Aux] at hc
  | succ fuel ih =>
    intro l hl c hc
    match l with
    | [] => simp [chunk5Aux] at hc
    | a :: t =>
      have he : chunk5Aux (fuel + 1) (a :: t)
          = (a :: t).take 5 :: chunk5Aux fuel ((a :: t).drop 5) := rfl
      rw [he] at hc
      rcases List.mem_cons.mp hc with h | h
      · subst h
        refine ⟨by simp, by simp [List.take_cons]⟩
      · exact ih ((a :: t).drop 5) (by simp at hl ⊢; omega) c h

theorem chunk5Aux_dropLast : ∀ (fuel : Nat) (l : List Char), l.length ≤ fuel →
    ∀ c ∈ (chunk5Aux fuel l).dropLast, c.length = 5 := by
  intro fuel
  induction fuel with
  | zero => intro l hl c hc; simp [chunk5Aux] at hc
  | succ fuel ih =>
    intro l hl c hc
    match l with
    | [] => simp [chunk5Aux] at hc
    | a :: t =>
      have he : chunk5Aux (fuel + 1) (a :: t)
          = (a :: t).take 5 :: chunk5Aux fuel ((a :: t).drop 5) := rfl
      rw [he] at hc
      cases hr : chunk5Aux fuel ((a :: t).drop 5) with
      | nil => rw [hr] at hc; simp at hc
      | cons r rs =>
        rw [hr] at hc
        have hd : ((a :: t).take 5 :: r :: rs).dropLast
            = (a :: t).take 5 :: (r :: rs).dropLast := rfl
        rw [hd] at hc
        rcases List.mem_cons.mp hc with h | h
        · subst h
          have hne : (a :: t).drop 5 ≠ [] := by
            intro h0
            rw [h0, chunk5Aux_nil] at hr
            exact List.noConfusion hr
          have h5 : 5 < (a :: t).length := by
            by_contra hle
            exact hne (List.drop_eq_nil_of_le (by omega))
          rw [List.length_take]
          omega
        · exact ih ((a :: t).drop 5) (by simp at hl ⊢; omega) c (hr ▸ h)

theorem dataMsg_drop5 {selfId dest seq : Nat} (frame : List Char)
    (h1 : selfId < 10) (h2 : dest < 10) (h3 : seq < 100) :
    (dataMsg selfId dest seq frame).drop 5 = frame := by
  have hlen : (dataMsgHeader selfId dest seq).length = 5 := by
    simp [dataMsgHeader, toDigits_len1 selfId h1, toDigits_len1 dest h2,
      zfill2_len2 seq h3]
  have he : dataMsg selfId dest seq frame = dataMsgHeader selfId dest seq ++ frame := by
    simp [dataMsg, dataMsgHeader]
  rw [he, ← hlen, List.drop_left]

/-- The fragments recovered (by `drop 5`) from the messages that the send
fold hands to the network layer are exactly the frames it was given. -/
theorem send_foldl_frags (cfg : NodeCfg) (h1 : cfg.id < 10) (h2 : cfg.dest_id < 10) :
    ∀ (frames : List (List Char)) (st : TState) (out : List (List Char × Nat)),
      st.sequence_number < 100 →
      ((frames.foldl
        (fun p frame =>
          let dm := dataMsg cfg.id cfg.dest_id p.1.sequence_number frame
          ({ p.1 with
              sequence_number := (p.1.sequence_number + 1) % 100,
              ack_buffer := p.1.ack_buffer ++ [(p.1.sequence_number, dm)],
              nack_timer := 20 },
           p.2 ++ [(dm, cfg.dest_id)]))
        (st, out)).2).map (fun p => p.1.drop 5)
      = out.map (fun p => p.1.drop 5) ++ frames := by
  intro frames
  induction frames with
  | nil => intro st out hsn; simp
  | cons f frames ih =>
    intro st out hsn
    rw [List.foldl_cons]
    rw [ih _ _ (Nat.mod_lt _ (by norm_num))]
    simp [dataMsg_drop5 f h1 h2 hsn]

/-- C5: `Transport_Layer.send` splits the node's message into consecutive
5-byte fragments, only the last possibly shorter; concatenating the
fragments of the emitted data messages in emission order (the order the
sequence numbers are assigned) reproduces the message exactly, and an empty
message emits no fragments and leaves the transport state unchanged. -/
theorem claim_C5_send_fragmentation (cfg : NodeCfg) (st : TState)
    (h1 : cfg.id < 10) (h2 : cfg.dest_id < 10) (h3 : st.sequence_number < 100) :
    ((Transport_Layer.send cfg st).2.map (fun p => p.1.drop 5)).flatten = cfg.message
    ∧ (∀ f ∈ ((Transport_Layer.send cfg st).2.map (fun p => p.1.drop 5)).dropLast,
        f.length = 5)
    ∧ (∀ f ∈ (Transport_Layer.send cfg st).2.map (fun p => p.1.drop 5),
        f.length ≤ 5 ∧ f ≠ [])
    ∧ (cfg.message = [] → Transport_Layer.send cfg st = (st, [])) := by
  by_cases hm : cfg.message = []
  · rw [Transport_Layer.send, if_pos hm]
    refine ⟨by simp [hm], by simp, by simp, fun _ => rfl⟩
  · rw [Transport_Layer.send, if_neg hm]
    have key := send_foldl_frags cfg h1 h2 (chunk5 cfg.message) st [] h3
    rw [List.map_nil, List.nil_append] at key
    rw [key]
    refine ⟨chunk5Aux_join _ _ (le_refl _),
      chunk5Aux_dropLast _ _ (le_refl _),
      chunk5Aux_mem _ _ (le_refl _),
      fun h => absurd h hm⟩

/-- Witness for C5 at a concrete 6-character message. -/
theorem claim_C5_send_fragmentation_witness :
    ((Transport_Layer.send ⟨0, 1, ['a', 'b', 'c', 'd', 'e', 'f']⟩
        ⟨0, [], [], [], -1⟩).2.map (fun p => p.1.drop 5)).flatten
      = ['a', 'b', 'c', 'd', 'e', 'f']
    ∧ (∀ f ∈ ((Transport_Layer.send ⟨0, 1, ['a', 'b', 'c', 'd', 'e', 'f']⟩
        ⟨0, [], [], [], -1⟩).2.map (fun p => p.1.drop 5)).dropLast, f.length = 5)
    ∧ (∀ f ∈ (Transport_Layer.send ⟨0, 1, ['a', 'b', 'c', 'd', 'e', 'f']⟩
        ⟨0, [], [], [], -1⟩).2.map (fun p => p.1.drop 5), f.length ≤ 5 ∧ f ≠ [])
    ∧ (['a', 'b', 'c', 'd', 'e', 'f'] = ([] : List Char) →
        Transport_Layer.send ⟨0, 1, ['a', 'b', 'c', 'd', 'e', 'f']⟩
          ⟨0, [], [], [], -1⟩ = (⟨0, [], [], [], -1⟩, [])) :=
  claim_C5_send_fragmentation ⟨0, 1, ['a', 'b', 'c', 'd', 'e', 'f']⟩
    ⟨0, [], [], [], -1⟩ (by decide) (by decide) (by decide)

-- ----------------------- DATALINK LAYER -----------------------

/-- State of the per-channel read loop of `receive_from_channel`: `resync`
is true inside the corruption-recovery loop, `msg` is the accumulator
`message`, `rest` the unread channel bytes, `bm` the `bookmarks[channel]`
offset, `delivered` the payloads handed to the network layer, `nacks` the
NACK messages requested from the transport layer. -/
structure ChanState where
  resync : Bool
  msg : List Char
  rest : List Char
  bm : Nat
  delivered : List (List Char)
  nacks : List (List Char)
deriving DecidableEq, Repr

namespace Datalink_Layer

/-- `Datalink_Layer.receive_from_network`: after asserting that the payload
is 15 bytes and the next hop is a neighbor, compute
`checksum = sum(message.encode('ascii')) % 100` and append
`'XX{:15}{}'.format(message, str(checksum).zfill(2))` to the channel file.
The appended bytes are returned; a failed assert, or a character outside
ASCII (which would make `encode('ascii')` raise), is a crash. -/
def receive_from_network (neighbors : List Nat) (message : List Char) (next_hop : Nat) :
    Run (List Char) :=
  if message.length ≠ 15 then .error .crash
  else if next_hop ∉ neighbors then .error .crash
  else if ¬ (∀ c ∈ message, c.toNat < 128) then .error .crash
  else .ok ('X' :: 'X' :: (ljust 15 message ++ zfill2 (asciiSum message % 100)))

/-- The corruption branch of `receive_from_channel` parses
`source = int(message[7])` and `seq_num = int(message[9:11])` (that is,
`n_decode = message[2:17][4:]`, `source = n_decode[1]`,
`seq = n_decode[3:5]`) before requesting a NACK; a non-digit raises. -/
def corruptParse (m : List Char) : Run (Nat × Nat) := do
  let c ← runOf (m.drop 7).head?
  let src ← runOf (digit? c)
  let seq ← runOf (decNat? ((m.drop 9).take 2))
  .ok (src, seq)

/-- The per-channel read loop of `Datalink_Layer.receive_from_channel`, one
fuel unit per loop iteration (one `f.read(1)` or one resynchronization
step).  The state mirrors the Python loop: `resync` is true inside the
corruption-recovery `while(message != "X")` loop, `msg` is the accumulator
`message`, `rest` the unread file content, `bm` the `bookmarks[channel]`
offset, `delivered` the payloads handed to the network layer and `nacks`
the NACK messages requested from the transport layer.  Faithful quirks of
the source kept here: the checksum field is only parsed when the preamble
matched (`or` short-circuit); `bookmarks` is **not** advanced for bytes
consumed inside the recovery loop; the recovery loop's `if not byte: break`
tests the *outer* variable `byte`, which is always a non-empty string when
the loop is entered, so the break never fires and at end of file the loop
re-reads the empty string forever; when recovery finds an `'X'` it leaves
it in the accumulator and resumes the outer loop. -/
def receive_from_channel (selfId : Nat) : Nat → ChanState → Run ChanState
  | 0, _ => .error .fuelOut
  | fuel + 1, s =>
    if s.resync then
      if s.msg = ['X'] then receive_from_channel selfId fuel { s with resync := false }
      else
        match s.rest with
        | [] => receive_from_channel selfId fuel { s with msg := [] }
        | c :: r => receive_from_channel selfId fuel { s with msg := [c], rest := r }
    else
      match s.rest with
      | [] => .ok s
      | c :: r =>
        let m := s.msg ++ [c]
        if m.length ≥ 19 then
          if m.take 2 ≠ ['X', 'X'] then
            match corruptParse m with
            | .error e => .error e
            | .ok (src, seq) =>
              receive_from_channel selfId fuel
                { resync := true, msg := m, rest := r, bm := s.bm + 1,
                  delivered := s.delivered, nacks := s.nacks ++ [nackMsg selfId src seq] }
          else
            match decNat? (m.drop 17) with
            | none => .error .crash
            | some cks =>
              if asciiSum ((m.drop 2).take 15) % 100 ≠ cks then
                match corruptParse m with
                | .error e => .error e
                | .ok (src, seq) =>
                  receive_from_channel selfId fuel
                    { resync := true, msg := m, rest := r, bm := s.bm + 1,
                      delivered := s.delivered, nacks := s.nacks ++ [nackMsg selfId src seq] }
              else
                receive_from_channel selfId fuel
                  { resync := false, msg := [], rest := r, bm := s.bm + 1,
                    delivered := s.delivered ++ [(m.drop 2).take 15], nacks := s.nacks }
        else
          receive_from_channel selfId fuel
            { s with msg := m, rest := r, bm := s.bm + 1 }

end Datalink_Layer

/-- C4: for a 15-byte payload and a next hop among the neighbors, the bytes
appended to the channel are exactly 19: the literal `"XX"`, the payload
itself, and the two zero-padded decimal digits of the ASCII byte sum of the
payload mod 100. -/
theorem claim_C4_frame_encoding (neighbors : List Nat) (message : List Char)
    (next_hop : Nat) (h15 : message.length = 15) (hnb : next_hop ∈ neighbors)
    (hascii : ∀ c ∈ message, c.toNat < 128) :
    ∃ frame, Datalink_Layer.receive_from_network neighbors message next_hop = .ok frame
      ∧ frame.length = 19
      ∧ frame.take 2 = ['X', 'X']
      ∧ (frame.drop 2).take 15 = message
      ∧ (frame.drop 17).length = 2
      ∧ decNat? (frame.drop 17) = some (asciiSum message % 100) := by
  have hmod : asciiSum message % 100 < 100 := Nat.mod_lt _ (by norm_num)
  have hj : ljust 15 message = message := by
    simp [ljust, h15]
  refine ⟨'X' :: 'X' :: (message ++ zfill2 (asciiSum message % 100)), ?_, ?_, ?_, ?_, ?_, ?_⟩
  · rw [Datalink_Layer.receive_from_network, if_neg (not_not_intro h15),
      if_neg (not_not_intro hnb), if_neg (not_not_intro hascii), hj]
  · simp [List.length_append, zfill2_len2 _ hmod, h15]
  · rfl
  · have hd : (('X' :: 'X' :: (message ++ zfill2 (asciiSum message % 100))).drop 2)
        = message ++ zfill2 (asciiSum message % 100) := rfl
    rw [hd, ← h15, List.take_left]
  · have hd : (('X' :: 'X' :: (message ++ zfill2 (asciiSum message % 100))).drop 17)
        = (message ++ zfill2 (asciiSum message % 100)).drop 15 := rfl
    rw [hd, ← h15, List.drop_left]
    exact zfill2_len2 _ hmod
  · have hd : (('X' :: 'X' :: (message ++ zfill2 (asciiSum message % 100))).drop 17)
        = (message ++ zfill2 (asciiSum message % 100)).drop 15 := rfl
    rw [hd, ← h15, List.drop_left]
    exact decNat?_zfill2 _ hmod

/-- Witness for C4 at the concrete 15-byte payload `"aaaaaaaaaaaaaaa"`. -/
theorem claim_C4_frame_encoding_witness :
    ∃ frame, Datalink_Layer.receive_from_network [1] (List.replicate 15 'a') 1 = .ok frame
      ∧ frame.length = 19
      ∧ frame.take 2 = ['X', 'X']
      ∧ (frame.drop 2).take 15 = List.replicate 15 'a'
      ∧ (frame.drop 17).length = 2
      ∧ decNat? (frame.drop 17) = some (asciiSum (List.replicate 15 'a') % 100) :=
  claim_C4_frame_encoding [1] (List.replicate 15 'a') 1 (by decide) (by decide) (by decide)

-- ----------------------- CHANNEL-READ TERMINATION -----------------------

/-- Once the corruption-recovery loop is entered with no bytes left in the
channel, every amount of fuel is exhausted: the loop can never exit. -/
theorem resync_empty_rest_diverges (selfId : Nat) : ∀ (fuel : Nat) (msg : List Char)
    (bm : Nat) (dlv nk : List (List Char)), msg ≠ ['X'] →
    Datalink_Layer.receive_from_channel selfId fuel ⟨true, msg, [], bm, dlv, nk⟩
      = .error .fuelOut := by
  intro fuel
  induction fuel with
  | zero => intro msg bm dlv nk h; rfl
  | succ fuel ih =>
    intro msg bm dlv nk h
    have he : Datalink_Layer.receive_from_channel selfId (fuel + 1) ⟨true, msg, [], bm, dlv, nk⟩
        = if msg = ['X']
          then Datalink_Layer.receive_from_channel selfId fuel ⟨false, msg, [], bm, dlv, nk⟩
          else Datalink_Layer.receive_from_channel selfId fuel ⟨true, [], [], bm, dlv, nk⟩ := rfl
    rw [he, if_neg h]
    exact ih [] bm dlv nk (by decide)

/-- C3: `receive_from_channel` does *not* terminate on every finite channel
content.  On a channel holding exactly one corrupted 19-byte frame (bad
preamble, no `'X'` byte anywhere) and then end of file, the corruption
branch fires, and the resynchronization loop — whose end-of-file test reads
the stale outer `byte` variable instead of `recovering_byte` — loops on the
empty read forever: no amount of fuel completes the call. -/
theorem claim_C3_receive_from_channel_diverges : ∀ fuel : Nat,
    Datalink_Layer.receive_from_channel 2 fuel
      ⟨false, [],
        ['Y', 'Y', 'D', '1', '0', '5', 'D', '1', '2', '0', '7',
         'h', 'e', 'l', 'l', 'o', 'o', '0', '0'], 0, [], []⟩
      = .error .fuelOut := by
  intro fuel
  rcases Nat.lt_or_ge fuel 19 with h | h
  · interval_cases fuel <;> rfl
  · obtain ⟨f, rfl⟩ := Nat.exists_eq_add_of_le h
    rw [Nat.add_comm 19 f]
    have hstep : Datalink_Layer.receive_from_channel 2 (f + 19)
        ⟨false, [],
          ['Y', 'Y', 'D', '1', '0', '5', 'D', '1', '2', '0', '7',
           'h', 'e', 'l', 'l', 'o', 'o', '0', '0'], 0, [], []⟩
        = Datalink_Layer.receive_from_channel 2 f
          ⟨true,
            ['Y', 'Y', 'D', '1', '0', '5', 'D', '1', '2', '0', '7',
             'h', 'e', 'l', 'l', 'o', 'o', '0', '0'], [], 19, [], [nackMsg 2 1 7]⟩ := rfl
    rw [hstep]
    exact resync_empty_rest_diverges 2 f _ 19 [] [nackMsg 2 1 7] (by decide)

/-- C9: after recovering from a corrupted frame, the accumulator is *not*
empty.  On a channel holding a corrupted 19-byte frame followed by a single
`'X'` byte, recovery finds the `'X'`, keeps it in the accumulator and ends
the tick with `msg = "X"`, while `bookmarks` was advanced only for the 19
bytes of the corrupted frame although 20 bytes were consumed from the
stream. -/
theorem claim_C9_resync_leaves_accumulator :
    Datalink_Layer.receive_from_channel 2 100
      ⟨false, [],
        ['Y', 'Y', 'D', '1', '0', '5', 'D', '1', '2', '0', '7',
         'h', 'e', 'l', 'l', 'o', 'o', '0', '0', 'X'], 0, [], []⟩
      = .ok ⟨false, ['X'], [], 19, [], [nackMsg 2 1 7]⟩
    ∧ (['X'] : List Char) ≠ [] :=
  ⟨rfl, by decide⟩

-- ----------------------- NETWORK LAYER -----------------------

/-- The stored link-state record (`class LSP`): latest accepted sequence
number and the originator's neighbor list, kept as the digit characters
sliced from the LSP packet (the redundant `message` / `source` /
`msg_type` / `history` fields are omitted). -/
structure LSPRec where
  seq_num : Nat
  neighbors : List Char
deriving DecidableEq, Repr

/-- Mutable state used by `Network_Layer`, together with the `neighbors`
and `neighbor_pulses` fields of the parent node that it reads and writes. -/
structure NState where
  neighbors : List Nat
  neighbor_pulses : List (Nat × Nat)
  routing_table : List (Nat × Nat)
  lsp_seq_num : Nat
  lsp_data : List (Nat × LSPRec)
  lsp_seq_num_table : List (Nat × Nat)
deriving DecidableEq, Repr

/-- The parent-node fields read by `network_route`. -/
structure RouteCtx where
  id : Nat
  neighbors : List Nat
deriving DecidableEq, Repr

/-- `sys.maxsize`, the "infinity" the source uses for unvisited distances. -/
def maxsize : Nat := 9223372036854775807

/-- `heapq.heappush` on `(distance, node)` pairs: insert keeping the queue
sorted in the lexicographic order Python tuples compare by, so that taking
the head of the list is exactly `heapq.heappop` (the minimum element). -/
def hpush (x : Nat × Nat) : List (Nat × Nat) → List (Nat × Nat)
  | [] => [x]
  | y :: ys =>
    if x.1 < y.1 ∨ (x.1 = y.1 ∧ x.2 ≤ y.2) then x :: y :: ys else y :: hpush x ys

namespace Network_Layer

/-- Body of the `for neighbor in self.parent_node.neighbors:` relaxation
run when the popped node is the node itself: look up `distances[neighbor]`
(`KeyError` crashes), and on improvement update the distance and push; no
`routing_table` entry is recorded on this path.  State is `(dist, heap)`. -/
def relaxStep (d : Nat) (p : List (Nat × Nat) × List (Nat × Nat)) (n : Nat) :
    Run (List (Nat × Nat) × List (Nat × Nat)) := do
  let dn ← runOf (alGet? n p.1)
  if d + 1 < dn then .ok (alSet n (d + 1) p.1, hpush (d + 1, n) p.2)
  else .ok p

/-- Body of the `for neighbor in self.lsp_data[current_node].neighbors:`
relaxation for a popped LSP originator `u`: parse the digit (`int` may
raise), look up its distance, and on improvement update the distance,
record `routing_table[int(v)] = u`, and push.  State is
`(dist, routing_table, heap)`. -/
def lspRelaxStep (d u : Nat)
    (t : List (Nat × Nat) × List (Nat × Nat) × List (Nat × Nat)) (c : Char) :
    Run (List (Nat × Nat) × List (Nat × Nat) × List (Nat × Nat)) := do
  let v ← runOf (digit? c)
  let dv ← runOf (alGet? v t.1)
  if d + 1 < dv then
    .ok (alSet v (d + 1) t.1, alSet v u t.2.1, hpush (d + 1, v) t.2.2)
  else .ok t

/-- The Dijkstra `while queue:` loop of `network_route`, one fuel unit per
iteration.  Popping takes the head of the sorted queue; a missing
`distances` key is a `KeyError` crash; a popped node with no `lsp_data`
entry (`self.lsp_data.get(current_node)` is falsy) relaxes nothing.
Relaxing from the node itself updates distances only; relaxing from an LSP
originator also records `routing_table[int(v)] = current_node` (the
predecessor, compacted to a next hop afterwards). -/
def dijkstra (ctx : RouteCtx) (lsp_data : List (Nat × LSPRec)) :
    Nat → List (Nat × Nat) → List (Nat × Nat) → List (Nat × Nat) →
    Run (List (Nat × Nat) × List (Nat × Nat))
  | 0, _, _, _ => .error .fuelOut
  | fuel + 1, heap, dist, rt =>
    match heap with
    | [] => .ok (dist, rt)
    | (d, u) :: heap => do
      let du ← runOf (alGet? u dist)
      if d > du then dijkstra ctx lsp_data fuel heap dist rt
      else if u = ctx.id then do
        let p ← ctx.neighbors.foldlM (relaxStep d) (dist, heap)
        dijkstra ctx lsp_data fuel p.2 p.1 rt
      else
        match alGet? u lsp_data with
        | none => dijkstra ctx lsp_data fuel heap dist rt
        | some lsp => do
          let t ← lsp.neighbors.foldlM (lspRelaxStep d u) (dist, rt, heap)
          dijkstra ctx lsp_data fuel t.2.2 t.1 t.2.1

/-- The route-compaction `while` walk: follow `routing_table` values until
one is the destination itself, the node's own id, or a direct neighbor; a
missing key is a `KeyError` crash, and the walk may loop forever on stale
cycles (fuel). -/
def compactWalk (ctx : RouteCtx) : Nat → List (Nat × Nat) → Nat → Nat → Run Nat
  | 0, _, _, _ => .error .fuelOut
  | fuel + 1, rt, nh, node =>
    if nh = node ∨ nh = ctx.id ∨ nh ∈ ctx.neighbors then .ok nh
    else do
      let nh' ← runOf (alGet? nh rt)
      compactWalk ctx fuel rt nh' node

/-- The `for node in self.routing_table:` compaction pass, iterating over
the key list in insertion order; entries already mapped to themselves are
skipped (`continue`), others are replaced by the result of the walk. -/
def compactionFold (ctx : RouteCtx) (fuel : Nat) :
    List Nat → List (Nat × Nat) → Run (List (Nat × Nat))
  | [], rt => .ok rt
  | node :: keys, rt => do
    let v ← runOf (alGet? node rt)
    if v = node then compactionFold ctx fuel keys rt
    else do
      let nh ← compactWalk ctx fuel rt v node
      compactionFold ctx fuel keys (alSet node nh rt)

/-- `Network_Layer.network_route`: seed `routing_table[self] = self` and
`routing_table[n] = n`, `distances[n] = 1` for each direct neighbor (the
table is *not* cleared first — the reset statement in the source is
commented out); set `distances` of every LSP originator and every node
named in any LSP neighbor list to `sys.maxsize` (overwriting neighbor
distances seeded just before); set `distances[self] = 0`; run Dijkstra from
`[(0, self)]`; then compact every routing-table entry to a next hop. -/
def network_route (ctx : RouteCtx) (fuel : Nat) (rt0 : List (Nat × Nat))
    (lsp_data : List (Nat × LSPRec)) : Run (List (Nat × Nat)) := do
  let p := ctx.neighbors.foldl
    (fun (p : List (Nat × Nat) × List (Nat × Nat)) n => (alSet n 1 p.1, alSet n n p.2))
    ([], alSet ctx.id ctx.id rt0)
  let dist ← lsp_data.foldlM
    (fun d q =>
      q.2.neighbors.foldlM
        (fun d c => do
          let v ← runOf (digit? c)
          .ok (alSet v maxsize d))
        (alSet q.1 maxsize d))
    p.1
  let dist := alSet ctx.id 0 dist
  let dr ← dijkstra ctx lsp_data fuel [(0, ctx.id)] dist p.2
  compactionFold ctx fuel (dr.2.map Prod.fst) dr.2

/-- The `for neighbor in source_neighbors:` loop at the top of the LSP
branch of `receive_from_datalink`: for every digit equal to the node's own
id, refresh the source's pulse to 20 and add the source to `neighbors` if
absent (`int(neighbor)` of a non-digit raises). -/
def pulseStep (selfId source : Nat) (st : NState) (c : Char) : Run NState := do
  let v ← runOf (digit? c)
  if v = selfId then
    .ok { st with
          neighbor_pulses := alSet source 20 st.neighbor_pulses,
          neighbors :=
            if source ∈ st.neighbors then st.neighbors else st.neighbors ++ [source] }
  else .ok st

/-- The accept path of the LSP branch: record the sequence number in
`lsp_seq_num_table`, replace the stored LSP record when the packet is
strictly newer than `lsp_data[source]`, re-flood the original message to
every neighbor that is neither the source nor named in the LSP's neighbor
list (`str(neighbor) not in source_neighbors` is a substring test), and
recompute routes. -/
def lspAccept (selfId fuel : Nat) (st : NState) (source seq : Nat)
    (sn : List Char) (message : List Char) :
    Run (NState × List (List Char) × List (List Char × Nat)) := do
  let st := { st with lsp_seq_num_table := alSet source seq st.lsp_seq_num_table }
  let st :=
    if (match alGet? source st.lsp_data with
        | none => true
        | some r => decide (seq > r.seq_num)) = true
    then { st with lsp_data := alSet source ⟨seq, sn⟩ st.lsp_data }
    else st
  let fwd := (st.neighbors.filter
      (fun n => n != source && ! infixOfL (Nat.toDigits 10 n) sn)).map
      (fun n => (message, n))
  let rt ← network_route ⟨selfId, st.neighbors⟩ fuel st.routing_table st.lsp_data
  .ok ({ st with routing_table := rt }, [], fwd)

/-- `Network_Layer.receive_from_datalink`: dispatch on the first character.
`"D"`: parse destination / length / embedded message; deliver locally when
the destination is this node (recorded in the first output list), otherwise
forward the original 15-byte payload to `routing_table[dest]` (second
output list), or drop when there is no route.  `"L"`: parse origin /
sequence number / neighbor digits, run the pulse loop, then either drop
(origin seen with an equal or newer recorded sequence number) or accept via
`lspAccept`.  Any other first character falls through with no effect. -/
def receive_from_datalink (selfId fuel : Nat) (st : NState) (message : List Char) :
    Run (NState × List (List Char) × List (List Char × Nat)) :=
  match message with
  | [] => .error .crash
  | c0 :: _ =>
    if c0 = 'D' then do
      let dc ← runOf (message.drop 1).head?
      let dest ← runOf (digit? dc)
      let len ← runOf (decNat? ((message.drop 2).take 2))
      let dm := (message.drop 4).take len
      if dest = selfId then .ok (st, [dm], [])
      else
        match alGet? dest st.routing_table with
        | some nh => .ok (st, [], [(message, nh)])
        | none => .ok (st, [], [])
    else if c0 = 'L' then do
      let sc ← runOf (message.drop 1).head?
      let source ← runOf (digit? sc)
      let seq ← runOf (decNat? ((message.drop 2).take 2))
      let sneighbors := pyStrip (message.drop 4)
      let st ← sneighbors.foldlM (pulseStep selfId source) st
      match alGet? source st.lsp_seq_num_table with
      | none => lspAccept selfId fuel st source seq sneighbors message
      | some prev =>
        if seq > prev then lspAccept selfId fuel st source seq sneighbors message
        else .ok (st, [], [])
    else .ok (st, [], [])

end Network_Layer

-- ----------------------- RUN / FOLD HELPERS -----------------------

theorem runOf_some {α : Type} (a : α) : runOf (some a) = (.ok a : Run α) := rfl

theorem runOf_none {α : Type} : runOf (none : Option α) = (.error .crash : Run α) := rfl

theorem run_bind_ok {α β : Type} (a : α) (f : α → Run β) :
    ((Except.ok a : Run α) >>= f) = f a := rfl

theorem run_bind_error {α β : Type} (e : Err) (f : α → Run β) :
    ((Except.error e : Run α) >>= f) = .error e := rfl

theorem run_bind_eq_ok {α β : Type} {x : Run α} {f : α → Run β} {b : β}
    (h : (x >>= f) = .ok b) : ∃ a, x = .ok a ∧ f a = .ok b := by
  cases x with
  | error e => rw [run_bind_error] at h; exact absurd h (by simp)
  | ok a => exact ⟨a, rfl, h⟩

theorem foldlM_inv {α β : Type} {P : β → Prop} {f : β → α → Run β}
    (hstep : ∀ b a b', P b → f b a = .ok b' → P b') :
    ∀ (l : List α) (b b' : β), P b → l.foldlM f b = .ok b' → P b' := by
  intro l
  induction l with
  | nil =>
    intro b b' hb h
    rw [List.foldlM_nil] at h
    cases h
    exact hb
  | cons a l ih =>
    intro b b' hb h
    rw [List.foldlM_cons] at h
    cases hf : f b a with
    | error e => rw [hf, run_bind_error] at h; exact absurd h (by simp)
    | ok b1 =>
      rw [hf, run_bind_ok] at h
      exact ih b1 b' (hstep b a b1 hb hf) h

-- ----------------------- ROUTING-TABLE INVARIANTS -----------------------

theorem relaxStep_inv {ctx : RouteCtx} (d : Nat)
    (p p' : List (Nat × Nat) × List (Nat × Nat)) (n : Nat)
    (h1 : alGet? ctx.id p.1 = some 0)
    (h : Network_Layer.relaxStep d p n = .ok p') : alGet? ctx.id p'.1 = some 0 := by
  unfold Network_Layer.relaxStep at h
  cases hdn : alGet? n p.1 with
  | none => rw [hdn, runOf_none, run_bind_error] at h; exact absurd h (by simp)
  | some dn =>
    rw [hdn, runOf_some, run_bind_ok] at h
    by_cases hn : n = ctx.id
    · subst hn
      rw [h1] at hdn
      cases hdn
      rw [if_neg (by omega)] at h
      cases h
      exact h1
    · split at h
      · cases h
        show alGet? ctx.id (alSet n (d + 1) p.1) = some 0
        rw [alGet?_alSet_ne _ _ (fun he => hn he.symm)]
        exact h1
      · cases h; exact h1

theorem lspRelaxStep_inv {ctx : RouteCtx} (d u : Nat)
    (t t' : List (Nat × Nat) × List (Nat × Nat) × List (Nat × Nat)) (c : Char)
    (h1 : alGet? ctx.id t.1 = some 0) (h2 : alGet? ctx.id t.2.1 = some ctx.id)
    (h : Network_Layer.lspRelaxStep d u t c = .ok t') :
    alGet? ctx.id t'.1 = some 0 ∧ alGet? ctx.id t'.2.1 = some ctx.id := by
  unfold Network_Layer.lspRelaxStep at h
  cases hv : digit? c with
  | none => rw [hv, runOf_none, run_bind_error] at h; exact absurd h (by simp)
  | some v =>
    rw [hv, runOf_some, run_bind_ok] at h
    cases hdv : alGet? v t.1 with
    | none => rw [hdv, runOf_none, run_bind_error] at h; exact absurd h (by simp)
    | some dv =>
      rw [hdv, runOf_some, run_bind_ok] at h
      by_cases hveq : v = ctx.id
      · subst hveq
        rw [h1] at hdv
        cases hdv
        rw [if_neg (by omega)] at h
        cases h
        exact ⟨h1, h2⟩
      · split at h
        · cases h
          constructor
          · show alGet? ctx.id (alSet v (d + 1) t.1) = some 0
            rw [alGet?_alSet_ne _ _ (fun he => hveq he.symm)]
            exact h1
          · show alGet? ctx.id (alSet v u t.2.1) = some ctx.id
            rw [alGet?_alSet_ne _ _ (fun he => hveq he.symm)]
            exact h2
        · cases h; exact ⟨h1, h2⟩

theorem dijkstra_inv (ctx : RouteCtx) (lsp_data : List (Nat × LSPRec)) :
    ∀ (fuel : Nat) (heap dist rt : List (Nat × Nat))
      (dr : List (Nat × Nat) × List (Nat × Nat)),
      alGet? ctx.id dist = some 0 → alGet? ctx.id rt = some ctx.id →
      Network_Layer.dijkstra ctx lsp_data fuel heap dist rt = .ok dr →
      alGet? ctx.id dr.1 = some 0 ∧ alGet? ctx.id dr.2 = some ctx.id := by
  intro fuel
  induction fuel with
  | zero =>
    intro heap dist rt dr h1 h2 h
    exact absurd h (by simp [Network_Layer.dijkstra])
  | succ fuel ih =>
    intro heap dist rt dr h1 h2 h
    match heap with
    | [] =>
      rw [show Network_Layer.dijkstra ctx lsp_data (fuel + 1) [] dist rt
          = .ok (dist, rt) from rfl] at h
      cases h
      exact ⟨h1, h2⟩
    | (d, u) :: heap =>
      simp only [Network_Layer.dijkstra] at h
      cases hdu : alGet? u dist with
      | none => rw [hdu, runOf_none, run_bind_error] at h; exact absurd h (by simp)
      | some du =>
        rw [hdu, runOf_some, run_bind_ok] at h
        split at h
        · exact ih heap dist rt dr h1 h2 h
        · split at h
          · cases hp : ctx.neighbors.foldlM (Network_Layer.relaxStep d) (dist, heap) with
            | error e => rw [hp, run_bind_error] at h; exact absurd h (by simp)
            | ok p =>
              rw [hp, run_bind_ok] at h
              have hpd : alGet? ctx.id p.1 = some 0 :=
                foldlM_inv (P := fun q => alGet? ctx.id q.1 = some 0)
                  (fun b a b' hb hf => relaxStep_inv d b b' a hb hf)
                  ctx.neighbors (dist, heap) p h1 hp
              exact ih p.2 p.1 rt dr hpd h2 h
          · split at h
            · exact ih heap dist rt dr h1 h2 h
            · rename_i lsp hl
              cases ht : lsp.neighbors.foldlM (Network_Layer.lspRelaxStep d u) (dist, rt, heap) with
              | error e => rw [ht, run_bind_error] at h; exact absurd h (by simp)
              | ok t =>
                rw [ht, run_bind_ok] at h
                have hti := foldlM_inv
                  (P := fun q => alGet? ctx.id q.1 = some 0 ∧ alGet? ctx.id q.2.1 = some ctx.id)
                  (fun b a b' hb hf => lspRelaxStep_inv d u b b' a hb.1 hb.2 hf)
                  lsp.neighbors (dist, rt, heap) t ⟨h1, h2⟩ ht
                exact ih t.2.2 t.1 t.2.1 dr hti.1 hti.2 h

theorem compactWalk_spec (ctx : RouteCtx) :
    ∀ (fuel : Nat) (rt : List (Nat × Nat)) (nh node res : Nat),
      Network_Layer.compactWalk ctx fuel rt nh node = .ok res →
      res = node ∨ res = ctx.id ∨ res ∈ ctx.neighbors := by
  intro fuel
  induction fuel with
  | zero => intro rt nh node res h; exact absurd h (by simp [Network_Layer.compactWalk])
  | succ fuel ih =>
    intro rt nh node res h
    simp only [Network_Layer.compactWalk] at h
    split at h
    · rename_i hcond
      cases h
      exact hcond
    · cases hnh : alGet? nh rt with
      | none => rw [hnh, runOf_none, run_bind_error] at h; exact absurd h (by simp)
      | some nh2 =>
        rw [hnh, runOf_some, run_bind_ok] at h
        exact ih rt nh2 node res h

/-- The post-compaction property of one routing-table entry: the stored
next hop is a direct neighbor, the destination itself, or the node's id. -/
def goodEntry (ctx : RouteCtx) (rt : List (Nat × Nat)) (k : Nat) : Prop :=
  ∀ v, alGet? k rt = some v → v ∈ ctx.neighbors ∨ v = k ∨ v = ctx.id

theorem compactionFold_spec (ctx : RouteCtx) (fuel : Nat) :
    ∀ (keys : List Nat) (rt rt' : List (Nat × Nat)),
      Network_Layer.compactionFold ctx fuel keys rt = .ok rt' →
      (∀ k, k ∉ keys → alGet? k rt' = alGet? k rt) ∧ (∀ k ∈ keys, goodEntry ctx rt' k) := by
  intro keys
  induction keys with
  | nil =>
    intro rt rt' h
    simp only [Network_Layer.compactionFold] at h
    cases h
    exact ⟨fun k _ => rfl, fun k hk => absurd hk (List.not_mem_nil k)⟩
  | cons node keys ih =>
    intro rt rt' h
    simp only [Network_Layer.compactionFold] at h
    cases hv : alGet? node rt with
    | none => rw [hv, runOf_none, run_bind_error] at h; exact absurd h (by simp)
    | some v =>
      rw [hv, runOf_some, run_bind_ok] at h
      by_cases hveq : v = node
      · rw [if_pos hveq] at h
        obtain ⟨huntouched, hgood⟩ := ih rt rt' h
        refine ⟨fun k hk => huntouched k (fun hm => hk (List.mem_cons_of_mem _ hm)), ?_⟩
        intro k hk
        rcases List.mem_cons.mp hk with rfl | hk2
        · by_cases hkin : k ∈ keys
          · exact hgood k hkin
          · intro w hw
            rw [huntouched k hkin, hv] at hw
            cases hw
            exact Or.inr (Or.inl hveq)
        · exact hgood k hk2
      · rw [if_neg hveq] at h
        cases hw : Network_Layer.compactWalk ctx fuel rt v node with
        | error e => rw [hw, run_bind_error] at h; exact absurd h (by simp)
        | ok nh =>
          rw [hw, run_bind_ok] at h
          obtain ⟨huntouched, hgood⟩ := ih _ rt' h
          have hnh := compactWalk_spec ctx fuel rt v node nh hw
          refine ⟨?_, ?_⟩
          · intro k hk
            have hkne : k ≠ node := fun he => hk (he ▸ List.mem_cons_self _ _)
            rw [huntouched k (fun hm => hk (List.mem_cons_of_mem _ hm))]
            exact alGet?_alSet_ne _ _ hkne
          · intro k hk
            rcases List.mem_cons.mp hk with rfl | hk2
            · by_cases hkin : k ∈ keys
              · exact hgood k hkin
              · intro w hwv
                rw [huntouched k hkin, alGet?_alSet_self] at hwv
                cases hwv
                rcases hnh with h' | h' | h'
                · exact Or.inr (Or.inl h')
                · exact Or.inr (Or.inr h')
                · exact Or.inl h'
            · exact hgood k hk2

theorem compactionFold_id (ctx : RouteCtx) (fuel : Nat) :
    ∀ (keys : List Nat) (rt rt' : List (Nat × Nat)),
      alGet? ctx.id rt = some ctx.id →
      Network_Layer.compactionFold ctx fuel keys rt = .ok rt' →
      alGet? ctx.id rt' = some ctx.id := by
  intro keys
  induction keys with
  | nil =>
    intro rt rt' hid h
    simp only [Network_Layer.compactionFold] at h
    cases h
    exact hid
  | cons node keys ih =>
    intro rt rt' hid h
    simp only [Network_Layer.compactionFold] at h
    cases hv : alGet? node rt with
    | none => rw [hv, runOf_none, run_bind_error] at h; exact absurd h (by simp)
    | some v =>
      rw [hv, runOf_some, run_bind_ok] at h
      by_cases hveq : v = node
      · rw [if_pos hveq] at h; exact ih rt rt' hid h
      · rw [if_neg hveq] at h
        cases hw : Network_Layer.compactWalk ctx fuel rt v node with
        | error e => rw [hw, run_bind_error] at h; exact absurd h (by simp)
        | ok nh =>
          rw [hw, run_bind_ok] at h
          have hne : node ≠ ctx.id := by
            intro he
            subst he
            rw [hid] at hv
            cases hv
            exact hveq rfl
          refine ih _ rt' ?_ h
          rw [alGet?_alSet_ne _ _ (fun x => hne x.symm)]
          exact hid

theorem initFold_rt_id (ctx : RouteCtx) (hid : ctx.id ∉ ctx.neighbors) :
    ∀ (nbrs : List Nat) (p : List (Nat × Nat) × List (Nat × Nat)),
      (∀ n ∈ nbrs, n ∈ ctx.neighbors) →
      alGet? ctx.id p.2 = some ctx.id →
      alGet? ctx.id
        (nbrs.foldl (fun p n => (alSet n 1 p.1, alSet n n p.2)) p).2 = some ctx.id := by
  intro nbrs
  induction nbrs with
  | nil => intro p _ hp; exact hp
  | cons n nbrs ih =>
    intro p hsub hp
    rw [List.foldl_cons]
    refine ih _ (fun m hm => hsub m (List.mem_cons_of_mem _ hm)) ?_
    have hn : n ≠ ctx.id := fun he => hid (he ▸ hsub n (List.mem_cons_self _ _))
    show alGet? ctx.id (alSet n n p.2) = some ctx.id
    rw [alGet?_alSet_ne _ _ (fun x => hn x.symm)]
    exact hp

/-- C6 (amended): after every *completing* run of `network_route` (the node
not being its own neighbor, which the constructor asserts), the routing
table maps the node's id to itself, and every other entry is a direct
neighbor, the entry's own key (a stale self-mapped entry that compaction
skips), or the node's id (a walk that ended at the node itself). -/
theorem claim_C6_routing_table_entries (ctx : RouteCtx) (fuel : Nat)
    (rt0 : List (Nat × Nat)) (lsp_data : List (Nat × LSPRec)) (rt' : List (Nat × Nat))
    (hid : ctx.id ∉ ctx.neighbors)
    (h : Network_Layer.network_route ctx fuel rt0 lsp_data = .ok rt') :
    alGet? ctx.id rt' = some ctx.id
    ∧ ∀ k v, alGet? k rt' = some v → k ≠ ctx.id →
        v ∈ ctx.neighbors ∨ v = k ∨ v = ctx.id := by
  simp only [Network_Layer.network_route] at h
  obtain ⟨dist1, hdist1, h⟩ := run_bind_eq_ok h
  obtain ⟨dr, hdr, h⟩ := run_bind_eq_ok h
  have hrt2 : alGet? ctx.id
      (ctx.neighbors.foldl (fun p n => (alSet n 1 p.1, alSet n n p.2))
        ([], alSet ctx.id ctx.id rt0)).2 = some ctx.id :=
    initFold_rt_id ctx hid ctx.neighbors ([], alSet ctx.id ctx.id rt0)
      (fun n hn => hn) (alGet?_alSet_self ctx.id ctx.id rt0)
  have hdij := dijkstra_inv ctx lsp_data fuel [(0, ctx.id)]
    (alSet ctx.id 0 dist1) _ dr (alGet?_alSet_self _ _ _) hrt2 hdr
  obtain ⟨huntouched, hgood⟩ := compactionFold_spec ctx fuel (dr.2.map Prod.fst) dr.2 rt' h
  constructor
  · exact compactionFold_id ctx fuel (dr.2.map Prod.fst) dr.2 rt' hdij.2 h
  · intro k v hkv hkne
    by_cases hkin : k ∈ dr.2.map Prod.fst
    · exact hgood k hkin v hkv
    · rw [huntouched k hkin] at hkv
      exact absurd (alGet?_mem_keys hkv) hkin

/-- C6 counterexample: the claim "every other entry is the ID of a direct
neighbor" fails.  With neighbors `[1]` and a routing table holding a stale
entry `3 → 3` (left over from a pruned neighbor — the source never clears
the table), `network_route` completes and keeps `3 → 3`, whose value is
neither the node's id nor a direct neighbor. -/
theorem claim_C6_counterexample :
    Network_Layer.network_route ⟨0, [1]⟩ 50 [(0, 0), (1, 1), (3, 3)] []
      = .ok [(0, 0), (1, 1), (3, 3)]
    ∧ alGet? 3 [(0, 0), (1, 1), (3, 3)] = some 3
    ∧ (3 : Nat) ≠ 0
    ∧ (3 : Nat) ∉ ([1] : List Nat) := by
  refine ⟨by decide, by decide, by decide, by decide⟩

/-- Witness for the amended C6 at a concrete completing run. -/
theorem claim_C6_routing_table_entries_witness :
    alGet? 0 [(0, 0), (1, 1)] = some 0
    ∧ ∀ k v, alGet? k [(0, 0), (1, 1)] = some v → k ≠ 0 →
        v ∈ ([1] : List Nat) ∨ v = k ∨ v = 0 :=
  claim_C6_routing_table_entries ⟨0, [1]⟩ 50 [] [] [(0, 0), (1, 1)]
    (by decide) (by decide)

-- ----------------------- LSP DUPLICATE SUPPRESSION -----------------------

/-- The pulse loop neither crashes (when every character is a digit) nor
touches `routing_table`, `lsp_data` or `lsp_seq_num_table`. -/
theorem pulseFold_preserves (selfId source : Nat) :
    ∀ (l : List Char) (st : NState), (∀ c ∈ l, (digit? c).isSome) →
      ∃ st', l.foldlM (Network_Layer.pulseStep selfId source) st = .ok st'
        ∧ st'.routing_table = st.routing_table
        ∧ st'.lsp_data = st.lsp_data
        ∧ st'.lsp_seq_num_table = st.lsp_seq_num_table := by
  intro l
  induction l with
  | nil =>
    intro st _
    exact ⟨st, rfl, rfl, rfl, rfl⟩
  | cons c l ih =>
    intro st hdig
    have hc := hdig c (List.mem_cons_self _ _)
    cases hv : digit? c with
    | none => rw [hv] at hc; simp at hc
    | some v =>
      have hstep : Network_Layer.pulseStep selfId source st c
          = .ok (if v = selfId then
                  { st with
                    neighbor_pulses := alSet source 20 st.neighbor_pulses,
                    neighbors := if source ∈ st.neighbors then st.neighbors
                                 else st.neighbors ++ [source] }
                 else st) := by
        unfold Network_Layer.pulseStep
        rw [hv, runOf_some, run_bind_ok]
        by_cases hvs : v = selfId
        · rw [if_pos hvs, if_pos hvs]
        · rw [if_neg hvs, if_neg hvs]
      obtain ⟨st', hrun, h1, h2, h3⟩ :=
        ih (if v = selfId then
              { st with
                neighbor_pulses := alSet source 20 st.neighbor_pulses,
                neighbors := if source ∈ st.neighbors then st.neighbors
                             else st.neighbors ++ [source] }
            else st)
          (fun c hc => hdig c (List.mem_cons_of_mem _ hc))
      refine ⟨st', ?_, ?_, ?_, ?_⟩
      · rw [List.foldlM_cons, hstep, run_bind_ok]
        exact hrun
      · rw [h1]; by_cases hvs : v = selfId <;> simp [hvs]
      · rw [h2]; by_cases hvs : v = selfId <;> simp [hvs]
      · rw [h3]; by_cases hvs : v = selfId <;> simp [hvs]

/-- C7: receiving an LSP whose origin is already present in
`lsp_seq_num_table` with a recorded sequence number at least the packet's
leaves `lsp_data` and `routing_table` unchanged, delivers nothing to the
transport layer and forwards nothing to the datalink layer: the duplicate
is dropped before re-flooding and route recomputation. -/
theorem claim_C7_lsp_duplicate_dropped (selfId fuel : Nat) (st : NState)
    (message : List Char) (c1 : Char) (source seq prev : Nat)
    (h0 : message.head? = some 'L')
    (h1 : (message.drop 1).head? = some c1)
    (h2 : digit? c1 = some source)
    (h3 : decNat? ((message.drop 2).take 2) = some seq)
    (h4 : ∀ c ∈ pyStrip (message.drop 4), (digit? c).isSome)
    (h5 : alGet? source st.lsp_seq_num_table = some prev)
    (h6 : seq ≤ prev) :
    ∃ st', Network_Layer.receive_from_datalink selfId fuel st message = .ok (st', [], [])
      ∧ st'.lsp_data = st.lsp_data
      ∧ st'.routing_table = st.routing_table := by
  obtain ⟨c0, mrest, rfl⟩ : ∃ c0 mrest, message = c0 :: mrest := by
    cases message with
    | nil => simp at h0
    | cons a l => exact ⟨a, l, rfl⟩
  have hc0 : c0 = 'L' := by simpa using h0
  subst hc0
  obtain ⟨st1, hrun, hrt, hld, hlt⟩ :=
    pulseFold_preserves selfId source (pyStrip (('L' :: mrest).drop 4)) st h4
  refine ⟨st1, ?_, hld, hrt⟩
  simp only [Network_Layer.receive_from_datalink]
  rw [if_neg (by decide), if_pos trivial]
  rw [h1, runOf_some, run_bind_ok, h2, runOf_some, run_bind_ok,
    h3, runOf_some, run_bind_ok, hrun, run_bind_ok]
  simp only [hlt, h5]
  rw [if_neg (by omega)]

/-- Witness for C7: a duplicate LSP `"L105"` (origin 1, seq 5, no neighbor
digits) against a state whose table already records 5 for origin 1. -/
theorem claim_C7_lsp_duplicate_dropped_witness :
    ∃ st', Network_Layer.receive_from_datalink 0 5
        ⟨[], [], [], 0, [], [(1, 5)]⟩ ['L', '1', '0', '5']
      = .ok (st', [], [])
      ∧ st'.lsp_data = (⟨[], [], [], 0, [], [(1, 5)]⟩ : NState).lsp_data
      ∧ st'.routing_table = (⟨[], [], [], 0, [], [(1, 5)]⟩ : NState).routing_table :=
  claim_C7_lsp_duplicate_dropped 0 5 ⟨[], [], [], 0, [], [(1, 5)]⟩
    ['L', '1', '0', '5'] '1' 1 5 5
    (by decide) (by decide) (by decide) (by decide) (by decide) (by decide) (by decide)

-- ----------------------- NACK FORMAT -----------------------

theorem corruptParse_spec {m : List Char} {src seq : Nat}
    (h : Datalink_Layer.corruptParse m = .ok (src, seq)) : src ≤ 9 ∧ seq ≤ 99 := by
  unfold Datalink_Layer.corruptParse at h
  cases hc : (m.drop 7).head? with
  | none => rw [hc, runOf_none, run_bind_error] at h; exact absurd h (by simp)
  | some c =>
    rw [hc, runOf_some, run_bind_ok] at h
    cases hs : digit? c with
    | none => rw [hs, runOf_none, run_bind_error] at h; exact absurd h (by simp)
    | some v =>
      rw [hs, runOf_some, run_bind_ok] at h
      cases hq : decNat? ((m.drop 9).take 2) with
      | none => rw [hq, runOf_none, run_bind_error] at h; exact absurd h (by simp)
      | some q =>
        rw [hq, runOf_some, run_bind_ok] at h
        simp only [Except.ok.injEq, Prod.mk.injEq] at h
        obtain ⟨rfl, rfl⟩ := h
        exact ⟨digit?_le9 hs, decNat?_le99 (by rw [List.length_take]; omega) hq⟩

/-- Every NACK the channel-read loop requests carries a one-digit source
and a two-digit-bounded sequence number parsed out of the corrupted frame. -/
theorem receive_from_channel_nacks (selfId : Nat) :
    ∀ (fuel : Nat) (s res : ChanState),
      Datalink_Layer.receive_from_channel selfId fuel s = .ok res →
      ∀ m ∈ res.nacks, m ∈ s.nacks
        ∨ ∃ src seq, src ≤ 9 ∧ seq ≤ 99 ∧ m = nackMsg selfId src seq := by
  intro fuel
  induction fuel with
  | zero =>
    intro s res h
    exact absurd h (by simp [Datalink_Layer.receive_from_channel])
  | succ fuel ih =>
    intro s res h
    simp only [Datalink_Layer.receive_from_channel] at h
    split at h
    · split at h
      · have hres := ih _ res h
        intro m hm
        exact hres m hm
      · split at h
        · have hres := ih _ res h
          intro m hm
          exact hres m hm
        · have hres := ih _ res h
          intro m hm
          exact hres m hm
    · split at h
      · cases h
        intro m hm
        exact Or.inl hm
      · split at h
        · split at h
          · split at h
            · exact absurd h (by simp)
            · rename_i src seq hcp
              intro m hm
              rcases ih _ res h m hm with hmem | hgood
              · rcases List.mem_append.mp hmem with h' | h'
                · exact Or.inl h'
                · obtain ⟨hsrc, hseq⟩ := corruptParse_spec hcp
                  exact Or.inr ⟨src, seq, hsrc, hseq, by simpa using h'⟩
              · exact Or.inr hgood
          · split at h
            · exact absurd h (by simp)
            · split at h
              · split at h
                · exact absurd h (by simp)
                · rename_i src seq hcp
                  intro m hm
                  rcases ih _ res h m hm with hmem | hgood
                  · rcases List.mem_append.mp hmem with h' | h'
                    · exact Or.inl h'
                    · obtain ⟨hsrc, hseq⟩ := corruptParse_spec hcp
                      exact Or.inr ⟨src, seq, hsrc, hseq, by simpa using h'⟩
                  · exact Or.inr hgood
              · intro m hm
                rcases ih _ res h m hm with hmem | hgood
                · exact Or.inl hmem
                · exact Or.inr hgood
        · intro m hm
          rcases ih _ res h m hm with hmem | hgood
          · exact Or.inl hmem
          · exact Or.inr hgood

/-- C10 (amended): every NACK the transport layer hands to the network
layer has the 5-byte form `"N" <nacker:1> <sender:1> <seq:2>` for all gap
NACKs, all corruption NACKs, and — provided `sequence_number ≤ 98` — the
terminal NACK with `seq = sequence_number + 1`. -/
theorem claim_C10_nack_format (selfId source : Nat) (st : TState)
    (hid : selfId < 10) (hsource : source < 10) (hsn : st.sequence_number ≤ 98) :
    (∀ m ∈ Transport_Layer.do_timeout selfId st source,
       m.length = 5 ∧ ∃ seq, seq ≤ 99 ∧ m = nackMsg selfId source seq)
    ∧ (∀ (fuel : Nat) (s res : ChanState),
        Datalink_Layer.receive_from_channel selfId fuel s = .ok res →
        ∀ m ∈ res.nacks, m ∈ s.nacks ∨ m.length = 5) := by
  constructor
  · intro m hm
    rw [do_timeout_eq] at hm
    split at hm
    · rcases List.mem_singleton.mp hm with rfl
      exact ⟨nackMsg_len hid hsource (by omega), st.sequence_number + 1, by omega, rfl⟩
    · obtain ⟨i, hi, rfl⟩ := List.mem_map.mp hm
      have hilt : i < st.sequence_number := List.mem_range.mp (List.mem_filter.mp hi).1
      exact ⟨nackMsg_len hid hsource (by omega), i, by omega, rfl⟩
  · intro fuel s res h m hm
    rcases receive_from_channel_nacks selfId fuel s res h m hm with hmem | ⟨src, seq, hsrc, hseq, rfl⟩
    · exact Or.inl hmem
    · exact Or.inr (nackMsg_len hid (by omega) hseq)

/-- C10 counterexample: with `sequence_number = 99` and a buffer holding the
fragments `0..98` from source 1, `do_timeout` emits exactly the terminal
NACK with seq `99 + 1 = 100`, whose `"{:02d}"` rendering is three digits:
the message `"N01100"` handed to the network layer is 6 bytes, not 5. -/
theorem claim_C10_counterexample :
    Transport_Layer.do_timeout 0
        ⟨99, (List.range 99).map (fun i => ⟨i, [], 1⟩), [], [], -1⟩ 1
      = [nackMsg 0 1 100]
    ∧ (nackMsg 0 1 100).length = 6 := by
  constructor
  · decide
  · decide

/-- Witness for the amended C10 at a concrete receiver state. -/
theorem claim_C10_nack_format_witness :
    (∀ m ∈ Transport_Layer.do_timeout 0 ⟨0, [], [], [], -1⟩ 1,
       m.length = 5 ∧ ∃ seq, seq ≤ 99 ∧ m = nackMsg 0 1 seq)
    ∧ (∀ (fuel : Nat) (s res : ChanState),
        Datalink_Layer.receive_from_channel 0 fuel s = .ok res →
        ∀ m ∈ res.nacks, m ∈ s.nacks ∨ m.length = 5) :=
  claim_C10_nack_format 0 1 ⟨0, [], [], [], -1⟩ (by decide) (by decide) (by decide)
